import Mathlib

/-!
Shallow embedding of the live-weather-dashboard repository (src/server.js,
which contains the Express server followed by the client script).

The server side (Request Gateway) is modelled as pure functions from a
request plus an upstream oracle (the behaviour of `makeRequest` on each URL)
to an HTTP response together with the list of upstream calls issued.
The client side (History Store) is modelled as pure list transformers over
the persisted `weatherHistory` blob, together with an executable model of
the JSON encoding and decoding of string arrays that `localStorage` round
trips through.
-/

namespace WeatherDashboard

/-! ## Small JavaScript builtins used by the code -/

/-- Model of the JavaScript whitespace class used by `String.prototype.trim`. -/
def jsWhitespaceChar (c : Char) : Bool :=
  c == ' ' || c == '\t' || c == '\n' || c == '\r' || c == '\x0b' || c == '\x0c' || c == ' '

/-- Model of JavaScript `String.prototype.trim`: drop whitespace at both ends. -/
def jsTrim (s : String) : String :=
  String.mk (((s.data.dropWhile jsWhitespaceChar).reverse.dropWhile jsWhitespaceChar).reverse)

/-- Model of JavaScript `String.prototype.toLowerCase` (character-wise lowering;
faithful for the ASCII names the code manipulates). -/
def jsToLowerCase (s : String) : String :=
  String.mk (s.data.map Char.toLower)

/-- Contiguous-substring test on character lists. -/
def hasSubstring (needle : List Char) : List Char → Bool
  | [] => needle.isEmpty
  | c :: rest => needle.isPrefixOf (c :: rest) || hasSubstring needle rest

/-- Model of JavaScript `String.prototype.includes`: substring containment. -/
def jsIncludes (hay needle : String) : Bool :=
  hasSubstring needle.data hay.data

/-- Digits of a numeral to a natural number, most significant first. -/
def digitsToNat (cs : List Char) : Nat :=
  cs.foldl (fun acc c => acc * 10 + (c.toNat - 48)) 0

/-- Model of JavaScript `parseFloat` on the decimal grammar
`sign? digits? (. digits?)?` with trailing junk ignored, returning `none`
for `NaN` and otherwise the exact value as a mantissa `m` and decimal
exponent `e` (the represented number is `m / 10 ^ e`).  The exotic cases
(exponents, `Infinity`) that the coordinate strings never use are
abstracted away; the exact decimal agrees with the parsed double on
every range comparison the code performs. -/
def jsParseFloat (s : String) : Option (Int × Nat) :=
  let cs := s.data.dropWhile jsWhitespaceChar
  let signAndRest : Int × List Char :=
    match cs with
    | '-' :: r => (-1, r)
    | '+' :: r => (1, r)
    | _ => (1, cs)
  let sign := signAndRest.1
  let cs1 := signAndRest.2
  let intPart := cs1.takeWhile Char.isDigit
  let cs2 := cs1.dropWhile Char.isDigit
  let fracPart : List Char :=
    match cs2 with
    | '.' :: r => r.takeWhile Char.isDigit
    | _ => []
  if intPart.isEmpty && fracPart.isEmpty then
    none
  else
    some (sign * ((digitsToNat intPart : Int) * 10 ^ fracPart.length +
      (digitsToNat fracPart : Int)), fracPart.length)

/-! ## Request Gateway (server.js lines 22-169) -/

/-- server.js lines 22-28: validate coordinate ranges
(latitude -90 to 90, longitude -180 to 180); `parseFloat` of a
non-numeric string is NaN, which fails every comparison. -/
def isValidCoordinate (lat lon : String) : Bool :=
  match jsParseFloat lat, jsParseFloat lon with
  | some latitude, some longitude =>
      decide (-(90 : Int) * 10 ^ latitude.2 ≤ latitude.1) &&
      decide (latitude.1 ≤ (90 : Int) * 10 ^ latitude.2) &&
      decide (-(180 : Int) * 10 ^ longitude.2 ≤ longitude.1) &&
      decide (longitude.1 ≤ (180 : Int) * 10 ^ longitude.2)
  | _, _ => false

/-- server.js lines 31-48: convert technical API errors to user-friendly
messages by inspecting the lowercased error message. -/
def getErrorMessage (errorMessage : String) : String :=
  let message := jsToLowerCase errorMessage
  if jsIncludes message "404" || jsIncludes message "not found" then
    "City not found. Please check the spelling."
  else if jsIncludes message "401" || jsIncludes message "unauthorized" then
    "Weather service authentication failed."
  else if jsIncludes message "timeout" then
    "Weather service request timed out. Please try again."
  else if jsIncludes message "network" || jsIncludes message "enotfound" then
    "Unable to connect to weather service."
  else
    "Weather service temporarily unavailable. Please try again."

/-- The upstream URLs the gateway builds (server.js lines 106-107 and
150-151), abstracted to the endpoint and its query-relevant content
(the fixed base URL, API key and units segments are common to all). -/
inductive UpstreamUrl where
  | weatherByName (q : String)
  | forecastByName (q : String)
  | weatherByCoords (lat lon : String)
  | forecastByCoords (lat lon : String)
deriving DecidableEq, Repr

/-- The behaviour of `makeRequest` (server.js lines 51-84) on each URL:
either a parsed JSON payload of type `π`, or a rejection carrying the
error message. -/
def Oracle (π : Type) : Type := UpstreamUrl → Except String π

/-- The merged success payload `res.json({ currentWeather, forecast })`. -/
structure WeatherBundle (π : Type) where
  currentWeather : π
  forecast : π
deriving DecidableEq, Repr

/-- The HTTP responses the two routes produce: 200 with a bundle,
400 with an error message, or 500 with an error message. -/
inductive Response (π : Type) where
  | success (bundle : WeatherBundle π)
  | badRequest (error : String)
  | serverError (error : String)
deriving DecidableEq, Repr

/-- `Promise.all` on two settled promises: resolves with the pair when both
resolve, rejects as soon as either rejects (left bias models the fixed
order of the array literal). -/
def promiseAll2 {ε α β : Type} : Except ε α → Except ε β → Except ε (α × β)
  | .ok x, .ok y => .ok (x, y)
  | .error e, _ => .error e
  | _, .error e => .error e

/-- server.js lines 87-125, the `/api/weather/:city` handler: validate the
city name, then issue the two parallel upstream calls and either merge the
results or translate the first failure.  Returns the response together
with the list of upstream calls issued. -/
def cityHandler {π : Type} (oracle : Oracle π) (city : String) :
    Response π × List UpstreamUrl :=
  if city = "" ∨ (jsTrim city).length = 0 then
    (.badRequest "City name is required and cannot be empty.", [])
  else
    let sanitizedCity := jsTrim city
    if sanitizedCity.length > 100 then
      (.badRequest "City name is too long.", [])
    else
      let currentWeatherUrl := UpstreamUrl.weatherByName sanitizedCity
      let forecastUrl := UpstreamUrl.forecastByName sanitizedCity
      match promiseAll2 (oracle currentWeatherUrl) (oracle forecastUrl) with
      | .ok (currentWeather, forecast) =>
          (.success ⟨currentWeather, forecast⟩, [currentWeatherUrl, forecastUrl])
      | .error e =>
          (.serverError (getErrorMessage e), [currentWeatherUrl, forecastUrl])

/-- A query-string parameter: absent, or present with a string value.
JavaScript treats both `undefined` and the empty string as falsy. -/
def isFalsyParam : Option String → Bool
  | none => true
  | some s => s == ""

/-- server.js lines 128-169, the `/api/weather/coords` handler: check
presence, then ranges, then issue the two parallel upstream calls built
from the raw query-string values. -/
def coordsHandler {π : Type} (oracle : Oracle π) (lat lon : Option String) :
    Response π × List UpstreamUrl :=
  if isFalsyParam lat || isFalsyParam lon then
    (.badRequest "Latitude and longitude are required.", [])
  else
    let la := lat.getD ""
    let lo := lon.getD ""
    if !isValidCoordinate la lo then
      (.badRequest "Invalid coordinates. Latitude must be -90 to 90, longitude must be -180 to 180.", [])
    else
      let currentWeatherUrl := UpstreamUrl.weatherByCoords la lo
      let forecastUrl := UpstreamUrl.forecastByCoords la lo
      match promiseAll2 (oracle currentWeatherUrl) (oracle forecastUrl) with
      | .ok (currentWeather, forecast) =>
          (.success ⟨currentWeather, forecast⟩, [currentWeatherUrl, forecastUrl])
      | .error e =>
          (.serverError (getErrorMessage e), [currentWeatherUrl, forecastUrl])

/-- An incoming HTTP GET request: path segments plus the `lat`/`lon`
query-string parameters. -/
structure HttpRequest where
  path : List String
  lat : Option String
  lon : Option String

/-- Express route pattern `/api/weather/:city` (registered first, server.js
line 87): matches any single non-empty third segment and binds it. -/
def matchCityRoute : List String → Option String
  | ["api", "weather", c] => if c = "" then none else some c
  | _ => none

/-- Express route pattern `/api/weather/coords` (registered second,
server.js line 128). -/
def matchCoordsRoute (path : List String) : Bool :=
  path == ["api", "weather", "coords"]

/-- Express dispatch: routes are tried in registration order, so the
`:city` pattern is consulted before the literal `coords` pattern.
`none` means no API route matched. -/
def dispatch {π : Type} (oracle : Oracle π) (req : HttpRequest) :
    Option (Response π × List UpstreamUrl) :=
  match matchCityRoute req.path with
  | some city => some (cityHandler oracle city)
  | none =>
      if matchCoordsRoute req.path then
        some (coordsHandler oracle req.lat req.lon)
      else
        none

/-! ## History Store (client script in server.js, lines 241-275 and 360-378) -/

/-- scriptside constant `MAX_HISTORY_ITEMS` (line 183). -/
def MAX_HISTORY_ITEMS : Nat := 10

/-- Client script lines 261-275, `saveCityToHistory`, as a transformer of
the decoded history list: case-insensitively filter out the city, add it
to the front, truncate to `MAX_HISTORY_ITEMS`. -/
def saveCityToHistory (city : String) (history : List String) : List String :=
  let filtered := history.filter
    (fun existingCity => jsToLowerCase existingCity != jsToLowerCase city)
  let fronted := city :: filtered
  if fronted.length > MAX_HISTORY_ITEMS then
    fronted.take MAX_HISTORY_ITEMS
  else
    fronted

/-- Client script lines 360-378, `deleteCity`, as a transformer of the
decoded history list: case-insensitively filter out the city. -/
def deleteCity (cityName : String) (history : List String) : List String :=
  history.filter (fun city => jsToLowerCase city != jsToLowerCase cityName)

/-- Sequential adds starting from the empty history. -/
def addAll (names : List String) : List String :=
  names.foldl (fun history city => saveCityToHistory city history) []

/-! ### JSON encoding and decoding of the persisted blob

`localStorage` holds `JSON.stringify(history)`; the code decodes it with
`JSON.parse(stored || chr(91) ++ chr(93))` and there is NO try/catch around
the parse in `renderHistory` or `saveCityToHistory`, so a malformed blob
makes `JSON.parse` throw.  The model below implements the JSON grammar of
arrays of strings, which is the entire language the store reads and
writes (escape sequences, which the stored city names never need, make a
literal fail to parse in the model; the claims only evaluate it on
escape-free payloads and on non-JSON junk). -/

/-- The characters of a JSON string literal body with its closing quote
and whatever follows; stops at the closing quote, fails on a backslash
escape or unterminated input. -/
def parseLitBody : List Char → List Char → Option (String × List Char)
  | [], _ => none
  | c :: rest, acc =>
    if c = '"' then some (String.mk acc.reverse, rest)
    else if c = '\\' then none
    else parseLitBody rest (c :: acc)

/-- A JSON string literal at the head of the input. -/
def parseStringLit : List Char → Option (String × List Char)
  | '"' :: rest => parseLitBody rest []
  | _ => none

/-- JSON whitespace between tokens. -/
def skipWs (cs : List Char) : List Char :=
  cs.dropWhile (fun c => c == ' ' || c == '\t' || c == '\n' || c == '\r')

/-- A non-empty comma-separated sequence of string literals followed by a
closing bracket; fuel bounds the recursion by the input length. -/
def parseElemsAux : Nat → List Char → Option (List String × List Char)
  | 0, _ => none
  | fuel + 1, cs =>
    match parseStringLit (skipWs cs) with
    | none => none
    | some (s, rest) =>
      match skipWs rest with
      | ',' :: rest2 =>
        match parseElemsAux fuel rest2 with
        | some (l, r) => some (s :: l, r)
        | none => none
      | ']' :: rest2 => some ([s], rest2)
      | _ => none

/-- Model of `JSON.parse` on the sublanguage of arrays of strings:
`none` models a thrown `SyntaxError`. -/
def jsonParseStringArray (s : String) : Option (List String) :=
  match skipWs s.data with
  | '[' :: rest =>
    if (skipWs rest).head? = some ']' then
      if skipWs (skipWs rest).tail = [] then some [] else none
    else
      match parseElemsAux (rest.length + 1) rest with
      | some (l, rest2) => if skipWs rest2 = [] then some l else none
      | none => none
  | _ => none

/-- The character content of the bracketless body `JSON.stringify` emits
for a list of strings. -/
def bodyChars : List String → List Char
  | [] => []
  | s :: rest =>
    ('"' :: s.data ++ ['"']) ++ (if rest = [] then [] else ',' :: bodyChars rest)

/-- Model of `JSON.stringify` on lists of strings (the only shape the
store persists); the stored names contain no quote, backslash or control
characters, so no escaping is emitted. -/
def stringifyList (l : List String) : String :=
  String.mk ('[' :: bodyChars l ++ [']'])

/-- A string `JSON.stringify` emits without escapes: no quote and no
backslash among its characters. -/
def plainString (s : String) : Bool :=
  s.data.all (fun c => c != '"' && c != '\\')

/-- The outcome of a JavaScript computation that may throw. -/
inductive JsOutcome (α : Type) where
  | ok (val : α)
  | thrown
deriving DecidableEq, Repr

/-- `localStorage.getItem(key) || chr(91) ++ chr(93)`: `getItem` yields
`null` when the key is absent; `null` and the empty string are falsy. -/
def getItemOrEmptyArray : Option String → String
  | none => "[]"
  | some s => if s = "" then "[]" else s

/-- Client script lines 241-258 (`renderHistory`, the list() read path):
decode the persisted blob; the absent blob falls back to the empty array
literal, but a malformed blob makes the unguarded `JSON.parse` throw. -/
def renderHistoryList (stored : Option String) : JsOutcome (List String) :=
  match jsonParseStringArray (getItemOrEmptyArray stored) with
  | some l => .ok l
  | none => .thrown

/-! ## History invariant -/

/-- The HistoryList invariant from the spec data model: bounded by
`MAX_HISTORY_ITEMS` and unique under case-insensitive comparison. -/
def historyInv (l : List String) : Prop :=
  l.length ≤ MAX_HISTORY_ITEMS ∧
  l.Pairwise (fun a b => jsToLowerCase a ≠ jsToLowerCase b)

/-! ## Helper lemmas about the History Store -/

theorem saveCity_take_eq (city : String) (h : List String) :
    saveCityToHistory city h =
      (city :: h.filter (fun x => jsToLowerCase x != jsToLowerCase city)).take
        MAX_HISTORY_ITEMS := by
  simp only [saveCityToHistory]
  split
  · rfl
  · next hl => exact (List.take_of_length_le (Nat.le_of_not_lt hl)).symm

theorem saveCity_eq_cons (city : String) (h : List String) :
    saveCityToHistory city h =
      city :: (h.filter (fun x => jsToLowerCase x != jsToLowerCase city)).take 9 := by
  rw [saveCity_take_eq]
  exact List.take_succ_cons

theorem filter_take_filter (p : String → Bool) (l : List String) (n : Nat) :
    ((l.filter p).take n).filter p = (l.filter p).take n :=
  List.filter_eq_self.mpr
    (fun _ ha => (List.mem_filter.mp (List.mem_of_mem_take ha)).2)

theorem saveCity_collapse {c₁ c₂ : String} (hlow : jsToLowerCase c₁ = jsToLowerCase c₂)
    (h : List String) :
    saveCityToHistory c₂ (saveCityToHistory c₁ h) = saveCityToHistory c₂ h := by
  rw [saveCity_eq_cons c₁, saveCity_eq_cons c₂, saveCity_eq_cons c₂, hlow,
    List.filter_cons_of_neg (by simp [hlow]), filter_take_filter]
  simp [List.take_take]

theorem saveCity_head (city : String) (h : List String) :
    (saveCityToHistory city h).head? = some city := by
  rw [saveCity_eq_cons]
  rfl

theorem saveCity_count (city : String) (h : List String) :
    (saveCityToHistory city h).countP
      (fun x => jsToLowerCase x == jsToLowerCase city) = 1 := by
  rw [saveCity_eq_cons, List.countP_cons]
  have hz : ((h.filter (fun x => jsToLowerCase x != jsToLowerCase city)).take 9).countP
      (fun x => jsToLowerCase x == jsToLowerCase city) = 0 := by
    rw [List.countP_eq_zero]
    intro a ha
    have := (List.mem_filter.mp (List.mem_of_mem_take ha)).2
    simp only [bne_iff_ne, ne_eq] at this
    simp [this]
  simp [hz]

theorem addAll_eq_take (names : List String)
    (hdist : names.Pairwise (fun a b => jsToLowerCase a ≠ jsToLowerCase b)) :
    addAll names = names.reverse.take MAX_HISTORY_ITEMS := by
  induction names using List.reverseRecOn with
  | nil => rfl
  | append_singleton ns c ih =>
    rw [List.pairwise_append] at hdist
    obtain ⟨hns, -, hrel⟩ := hdist
    have hstep : addAll (ns ++ [c]) = saveCityToHistory c (addAll ns) := by
      simp [addAll, List.foldl_append]
    rw [hstep, ih hns, saveCity_eq_cons]
    have hfil : (ns.reverse.take MAX_HISTORY_ITEMS).filter
        (fun x => jsToLowerCase x != jsToLowerCase c) =
        ns.reverse.take MAX_HISTORY_ITEMS := by
      rw [List.filter_eq_self]
      intro a ha
      have hmem : a ∈ ns := List.mem_reverse.mp (List.mem_of_mem_take ha)
      simp [bne_iff_ne]
      exact hrel a hmem c (List.mem_singleton.mpr rfl)
    rw [hfil]
    rw [show MAX_HISTORY_ITEMS = 10 from rfl]
    rw [List.take_take]
    simp [List.take_succ_cons]

/-! ## Helper lemmas about the JSON round trip -/

theorem skipWs_cons_of_false {c : Char} (r : List Char)
    (h : (c == ' ' || c == '\t' || c == '\n' || c == '\r') = false) :
    skipWs (c :: r) = c :: r := by
  simp only [skipWs, List.dropWhile_cons, h]
  rfl

theorem parseLitBody_plain (cs : List Char) (acc rest : List Char)
    (hplain : ∀ c ∈ cs, c ≠ '"' ∧ c ≠ '\\') :
    parseLitBody (cs ++ '"' :: rest) acc = some (String.mk (acc.reverse ++ cs), rest) := by
  induction cs generalizing acc with
  | nil => simp [parseLitBody]
  | cons c cs' ih =>
    obtain ⟨hq, hb⟩ := hplain c (List.mem_cons_self c cs')
    have hrest : ∀ d ∈ cs', d ≠ '"' ∧ d ≠ '\\' :=
      fun d hd => hplain d (List.mem_cons_of_mem c hd)
    simp only [List.cons_append, parseLitBody, if_neg hq, if_neg hb, List.append_eq]
    rw [ih (c :: acc) hrest]
    simp

theorem parseStringLit_plain (s : String) (rest : List Char)
    (hplain : plainString s = true) :
    parseStringLit ('"' :: (s.data ++ '"' :: rest)) = some (s, rest) := by
  have hchars : ∀ c ∈ s.data, c ≠ '"' ∧ c ≠ '\\' := by
    intro c hc
    have := List.all_eq_true.mp hplain c hc
    simpa using this
  simp only [parseStringLit]
  rw [parseLitBody_plain s.data [] rest hchars]
  simp

theorem parseElemsAux_body (l : List String) (rest : List Char)
    (hne : l ≠ []) (hplain : ∀ s ∈ l, plainString s = true) :
    ∀ fuel, l.length ≤ fuel →
      parseElemsAux fuel (bodyChars l ++ ']' :: rest) = some (l, rest) := by
  induction l generalizing rest with
  | nil => exact absurd rfl hne
  | cons s l' ih =>
    intro fuel hfuel
    obtain ⟨fuel', rfl⟩ : ∃ f, fuel = f + 1 := by
      cases fuel with
      | zero => simp at hfuel
      | succ f => exact ⟨f, rfl⟩
    have hs : plainString s = true := hplain s (List.mem_cons_self s l')
    cases hl' : decide (l' = []) with
    | true =>
      have hl'' : l' = [] := of_decide_eq_true hl'
      subst hl''
      show parseElemsAux (fuel' + 1)
        ((('"' :: s.data ++ ['"']) ++ []) ++ ']' :: rest) = some ([s], rest)
      simp only [List.append_nil, List.nil_append, List.cons_append,
        List.append_assoc, List.singleton_append]
      simp only [parseElemsAux]
      rw [skipWs_cons_of_false _ (by decide), parseStringLit_plain s (']' :: rest) hs]
      rfl
    | false =>
      have hl'' : l' ≠ [] := of_decide_eq_false hl'
      have hfuel' : l'.length ≤ fuel' := by
        simp only [List.length_cons] at hfuel
        omega
      have hplain' : ∀ t ∈ l', plainString t = true :=
        fun t ht => hplain t (List.mem_cons_of_mem s ht)
      show parseElemsAux (fuel' + 1)
        ((('"' :: s.data ++ ['"']) ++ (if l' = [] then [] else ',' :: bodyChars l'))
          ++ ']' :: rest) = some (s :: l', rest)
      rw [if_neg hl'']
      simp only [List.append_nil, List.nil_append, List.cons_append,
        List.append_assoc, List.singleton_append]
      simp only [parseElemsAux]
      rw [skipWs_cons_of_false _ (by decide),
        parseStringLit_plain s (',' :: (bodyChars l' ++ ']' :: rest)) hs]
      show (match parseElemsAux fuel' (bodyChars l' ++ ']' :: rest) with
        | some (l, r) => some (s :: l, r)
        | none => none) = some (s :: l', rest)
      rw [ih rest hl'' hplain' fuel' hfuel']

theorem bodyChars_length_ge (l : List String) : l.length ≤ (bodyChars l).length := by
  induction l with
  | nil => simp [bodyChars]
  | cons s l' ih =>
    cases hl' : decide (l' = []) with
    | true =>
      have : l' = [] := of_decide_eq_true hl'
      subst this
      simp [bodyChars]
    | false =>
      have hne : l' ≠ [] := of_decide_eq_false hl'
      simp only [bodyChars, if_neg hne, List.length_append, List.length_cons,
        List.length_cons]
      simp only [List.length_cons] at ih ⊢
      omega

theorem bodyChars_cons_form (s : String) (l' : List String) :
    bodyChars (s :: l') =
      '"' :: (s.data ++ ['"'] ++ (if l' = [] then [] else ',' :: bodyChars l')) := by
  simp [bodyChars, List.cons_append, List.append_assoc]

theorem jsonRoundTrip (l : List String) (hplain : ∀ s ∈ l, plainString s = true) :
    jsonParseStringArray (stringifyList l) = some l := by
  cases l with
  | nil =>
    simp [jsonParseStringArray, stringifyList, bodyChars, skipWs]
  | cons s l' =>
    have hne : (s :: l' : List String) ≠ [] := by simp
    have hparse := parseElemsAux_body (s :: l') []
      hne hplain ((bodyChars (s :: l') ++ [']']).length + 1)
      (by
        have := bodyChars_length_ge (s :: l')
        simp only [List.length_append]
        omega)
    have hdata : (stringifyList (s :: l')).data =
        '[' :: (bodyChars (s :: l') ++ [']']) := rfl
    have hskip1 : skipWs ('[' :: (bodyChars (s :: l') ++ [']'])) =
        '[' :: (bodyChars (s :: l') ++ [']']) := skipWs_cons_of_false _ (by decide)
    have hskip2 : skipWs (bodyChars (s :: l') ++ [']']) =
        bodyChars (s :: l') ++ [']'] := by
      rw [bodyChars_cons_form, List.cons_append]
      exact skipWs_cons_of_false _ (by decide)
    have hhead : (bodyChars (s :: l') ++ [']']).head? ≠ some ']' := by
      rw [bodyChars_cons_form, List.cons_append]
      simp
    simp only [jsonParseStringArray, hdata, hskip1, hskip2]
    rw [if_neg hhead]
    have hparse' : parseElemsAux ((bodyChars (s :: l') ++ [']']).length + 1)
        (bodyChars (s :: l') ++ [']']) = some (s :: l', []) := by
      have : (bodyChars (s :: l') ++ ([']'] : List Char)) =
          bodyChars (s :: l') ++ ']' :: [] := rfl
      rw [this]
      exact hparse
    rw [hparse']
    simp [skipWs]

/-! ## Claim theorems -/

/-- C1: the claim states that every HTTP request GET /api/weather/coords with
an absent, non-numeric or out-of-range coordinate is answered 400 with a
ValidationError and no upstream call.  The code contradicts it: because the
route pattern for `:city` is registered first, the request with path
/api/weather/coords and the out-of-range latitude 999 is dispatched to the
city-name handler, which (under an upstream oracle that resolves every call)
responds 200 with a bundle and issues two upstream by-name calls for the
literal city "coords" -- not a 400, and not zero upstream calls. -/
theorem coordsRequestHitsCityHandler :
    dispatch (fun _ => Except.ok ())
      ⟨["api", "weather", "coords"], some "999", some "0"⟩ =
      some (Response.success ⟨(), ()⟩,
        [UpstreamUrl.weatherByName "coords", UpstreamUrl.forecastByName "coords"]) := by
  decide

/-- C2: because the route pattern /api/weather/:city is registered before
/api/weather/coords, every HTTP request whose path is /api/weather/coords
is dispatched to the city-name handler with city = "coords", whatever its
query parameters and whatever the upstream behaviour; the coordinate
handler is never reached at the HTTP surface. -/
theorem coordsPathDispatchesToCityHandler (π : Type) (oracle : Oracle π)
    (lat lon : Option String) :
    dispatch oracle ⟨["api", "weather", "coords"], lat, lon⟩ =
      some (cityHandler oracle "coords") := by
  rfl

/-- C3 (amended): list() returns the stored entries in stored (most-recent-
first) order for every well-formed persisted state, and the empty sequence
when no prior state exists; but a malformed persisted state makes the
unguarded JSON.parse throw, rather than being treated as empty. -/
theorem renderHistoryListSemantics :
    (∀ l : List String, (∀ s ∈ l, plainString s = true) →
        renderHistoryList (some (stringifyList l)) = .ok l)
    ∧ renderHistoryList none = .ok [] := by
  constructor
  · intro l hplain
    have hne : stringifyList l ≠ "" := by
      intro hcontr
      have hd : ('[' :: bodyChars l ++ [']'] : List Char) = [] :=
        congrArg String.data hcontr
      simp at hd
    simp only [renderHistoryList, getItemOrEmptyArray, if_neg hne,
      jsonRoundTrip l hplain]
  · rfl

/-- C3 counterexample: the claim as stated says a malformed persisted state
yields the empty sequence rather than an error; on the concrete malformed
blob "not json" the code instead throws (JSON.parse SyntaxError propagates
out of renderHistory). -/
theorem renderHistoryMalformedThrows :
    renderHistoryList (some "not json") = .thrown := by
  decide

/-- C3 witness: the round-trip branch of the amended claim evaluated at the
concrete two-entry history. -/
theorem renderHistoryListSemanticsWitness :
    renderHistoryList (some (stringifyList ["Paris", "London"])) =
      .ok ["Paris", "London"] :=
  renderHistoryListSemantics.1 ["Paris", "London"] (by decide)

/-- C4: for every lookup, by name or by coordinates, the combined result is
all-or-nothing: Promise.all of the two upstream calls fails whenever either
call fails, and a success bundle can only be returned when both upstream
calls succeeded with exactly its two components -- no partial bundle exists,
regardless of which call failed. -/
theorem lookupAllOrNothing (π : Type) (oracle : Oracle π) (city : String)
    (lat lon : Option String) :
    (∀ a b : Except String π, a.isOk = false ∨ b.isOk = false →
        (promiseAll2 a b).isOk = false)
    ∧ (∀ bundle, (cityHandler oracle city).1 = .success bundle →
        oracle (.weatherByName (jsTrim city)) = .ok bundle.currentWeather ∧
        oracle (.forecastByName (jsTrim city)) = .ok bundle.forecast)
    ∧ (∀ bundle, (coordsHandler oracle lat lon).1 = .success bundle →
        oracle (.weatherByCoords (lat.getD "") (lon.getD "")) = .ok bundle.currentWeather ∧
        oracle (.forecastByCoords (lat.getD "") (lon.getD "")) = .ok bundle.forecast) := by
  refine ⟨?_, ?_, ?_⟩
  · intro a b hab
    cases a <;> cases b <;> simp_all [promiseAll2, Except.isOk, Except.toBool]
  · intro bundle hb
    by_cases h1 : city = "" ∨ (jsTrim city).length = 0
    · simp [cityHandler, h1] at hb
    · by_cases h2 : (jsTrim city).length > 100
      · simp [cityHandler, h1, h2] at hb
      · cases hcw : oracle (.weatherByName (jsTrim city)) with
        | error e => simp [cityHandler, h1, h2, promiseAll2, hcw] at hb
        | ok cw =>
          cases hfc : oracle (.forecastByName (jsTrim city)) with
          | error e => simp [cityHandler, h1, h2, promiseAll2, hcw, hfc] at hb
          | ok fc =>
            simp only [cityHandler, if_neg h1, if_neg h2, hcw, hfc,
              promiseAll2] at hb
            cases bundle
            simp only [Response.success.injEq, WeatherBundle.mk.injEq] at hb
            simp [hcw, hfc, hb.1, hb.2]
  · intro bundle hb
    by_cases h1 : (isFalsyParam lat || isFalsyParam lon) = true
    · simp [coordsHandler, h1] at hb
    · by_cases h2 : (!isValidCoordinate (lat.getD "") (lon.getD "")) = true
      · simp [coordsHandler, h1, h2] at hb
      · cases hcw : oracle (.weatherByCoords (lat.getD "") (lon.getD "")) with
        | error e => simp [coordsHandler, h1, h2, promiseAll2, hcw] at hb
        | ok cw =>
          cases hfc : oracle (.forecastByCoords (lat.getD "") (lon.getD "")) with
          | error e => simp [coordsHandler, h1, h2, promiseAll2, hcw, hfc] at hb
          | ok fc =>
            simp only [coordsHandler, h1, h2, hcw, hfc, promiseAll2,
              Bool.false_eq_true, if_false] at hb
            cases bundle
            simp only [Response.success.injEq, WeatherBundle.mk.injEq] at hb
            simp [hcw, hfc, hb.1, hb.2]

/-- C4 witness: at a concrete oracle whose forecast call rejects, the
combined Promise.all result is not ok, and concretely the timed-out city
lookup returns no success bundle. -/
theorem lookupAllOrNothingWitness :
    (promiseAll2 (Except.ok () : Except String Unit)
      (Except.error "timeout" : Except String Unit)).isOk = false :=
  (lookupAllOrNothing Unit (fun _ => Except.ok ()) "London" none none).1
    (Except.ok ()) (Except.error "timeout") (Or.inr (by decide))

/-- C5: every city name whose trimmed length is 0 or greater than 100 is
rejected by the city-name handler with a 400 ValidationError message and no
upstream call is issued. -/
theorem lookupByNameValidationRejects (π : Type) (oracle : Oracle π)
    (city : String)
    (h : (jsTrim city).length = 0 ∨ (jsTrim city).length > 100) :
    ∃ msg, cityHandler oracle city = (.badRequest msg, []) := by
  rcases h with h0 | h100
  · exact ⟨"City name is required and cannot be empty.",
      by simp [cityHandler, h0]⟩
  · have h1 : ¬(city = "" ∨ (jsTrim city).length = 0) := by
      rintro (rfl | hz)
      · exact absurd h100 (by decide)
      · omega
    exact ⟨"City name is too long.", by simp [cityHandler, h1, h100]⟩

/-- C5 witness: the all-whitespace name trims to length 0 and is rejected
with a 400 and no upstream calls. -/
theorem lookupByNameValidationRejectsWitness :
    ∃ msg, cityHandler (π := Unit) (fun _ => Except.ok ()) "   " =
      (.badRequest msg, []) :=
  lookupByNameValidationRejects Unit (fun _ => Except.ok ()) "   "
    (Or.inl (by decide))

/-- C6: the error-translation function is a total function (hence
deterministic and free of side effects in this pure embedding): every error
message is mapped to exactly one of the five user-facing categories, and
when none of the inspected patterns occurs in the lowercased message the
result is the generic temporarily-unavailable category. -/
theorem getErrorMessageTotalFiveCategories (e : String) :
    (getErrorMessage e = "City not found. Please check the spelling." ∨
     getErrorMessage e = "Weather service authentication failed." ∨
     getErrorMessage e = "Weather service request timed out. Please try again." ∨
     getErrorMessage e = "Unable to connect to weather service." ∨
     getErrorMessage e = "Weather service temporarily unavailable. Please try again.")
    ∧ ((jsIncludes (jsToLowerCase e) "404" = false ∧
        jsIncludes (jsToLowerCase e) "not found" = false ∧
        jsIncludes (jsToLowerCase e) "401" = false ∧
        jsIncludes (jsToLowerCase e) "unauthorized" = false ∧
        jsIncludes (jsToLowerCase e) "timeout" = false ∧
        jsIncludes (jsToLowerCase e) "network" = false ∧
        jsIncludes (jsToLowerCase e) "enotfound" = false) →
      getErrorMessage e =
        "Weather service temporarily unavailable. Please try again.") := by
  constructor
  · simp only [getErrorMessage]
    split_ifs <;> tauto
  · rintro ⟨h404, hnf, h401, hun, hto, hnw, hen⟩
    simp only [getErrorMessage]
    split_ifs with hA hB hC hD
    · simp [h404, hnf] at hA
    · simp [h401, hun] at hB
    · simp [hto] at hC
    · simp [hnw, hen] at hD
    · rfl

/-- C6 witness: a message matching none of the patterns lands in the
generic category. -/
theorem getErrorMessageTotalFiveCategoriesWitness :
    getErrorMessage "boom" =
      "Weather service temporarily unavailable. Please try again." :=
  (getErrorMessageTotalFiveCategories "boom").2 (by decide)

/-- C10: on a successful name lookup the returned payload is the pair of
upstream response bodies verbatim: whenever both upstream calls succeed,
the handler responds with the success bundle whose components are exactly
the two upstream payloads, unmodified. -/
theorem lookupByNamePassthrough (π : Type) (oracle : Oracle π) (city : String)
    (cur fc : π)
    (h1 : ¬(city = "" ∨ (jsTrim city).length = 0))
    (h2 : ¬((jsTrim city).length > 100))
    (hcw : oracle (.weatherByName (jsTrim city)) = .ok cur)
    (hfc : oracle (.forecastByName (jsTrim city)) = .ok fc) :
    (cityHandler oracle city).1 = .success ⟨cur, fc⟩ := by
  simp [cityHandler, h1, h2, hcw, hfc, promiseAll2]

/-- C10 witness: with an oracle that returns each URL as its own payload,
the London lookup returns exactly the two upstream fixtures, showing the
bundle components are the upstream bodies verbatim. -/
theorem lookupByNamePassthroughWitness :
    (cityHandler (fun u => Except.ok u) "London").1 =
      .success ⟨.weatherByName "London", .forecastByName "London"⟩ :=
  lookupByNamePassthrough UpstreamUrl (fun u => Except.ok u) "London"
    (.weatherByName "London") (.forecastByName "London")
    (by decide) (by decide) rfl rfl

/-- C7: both History Store mutations preserve the HistoryList invariant
(length at most 10 and uniqueness under case-insensitive comparison), and
adding any 11 case-insensitively distinct names to the empty history yields
exactly the 10 most recent names, most-recent-first. -/
theorem historyStoreInvariant :
    (∀ (city : String) (h : List String), historyInv h →
        historyInv (saveCityToHistory city h) ∧ historyInv (deleteCity city h))
    ∧ (∀ names : List String, names.length = 11 →
        names.Pairwise (fun a b => jsToLowerCase a ≠ jsToLowerCase b) →
        addAll names = names.reverse.take MAX_HISTORY_ITEMS ∧
        (addAll names).length = MAX_HISTORY_ITEMS) := by
  constructor
  · rintro city h ⟨hlen, hpw⟩
    refine ⟨⟨?_, ?_⟩, ⟨?_, ?_⟩⟩
    · rw [saveCity_eq_cons]
      have := List.length_take 9
        (h.filter (fun x => jsToLowerCase x != jsToLowerCase city))
      simp only [List.length_cons, MAX_HISTORY_ITEMS]
      omega
    · rw [saveCity_eq_cons, List.pairwise_cons]
      constructor
      · intro b hb
        have hpb := (List.mem_filter.mp (List.mem_of_mem_take hb)).2
        simp only [bne_iff_ne, ne_eq] at hpb
        exact fun hc => hpb hc.symm
      · exact hpw.sublist ((List.take_sublist _ _).trans (List.filter_sublist _))
    · exact le_trans (List.length_filter_le _ _) hlen
    · exact hpw.sublist (List.filter_sublist _)
  · intro names hlen hdist
    have heq := addAll_eq_take names hdist
    refine ⟨heq, ?_⟩
    rw [heq]
    simp only [List.length_take, List.length_reverse, hlen, MAX_HISTORY_ITEMS]
    omega

/-- C7 witness: the invariant is preserved at a concrete state, and adding
the 11 distinct names a..k to the empty history yields exactly the most
recent 10 in most-recent-first order. -/
theorem historyStoreInvariantWitness :
    (historyInv (saveCityToHistory "Paris" ["London"]) ∧
      historyInv (deleteCity "Paris" ["London"]))
    ∧ (addAll ["a", "b", "c", "d", "e", "f", "g", "h", "i", "j", "k"] =
        (["a", "b", "c", "d", "e", "f", "g", "h", "i", "j", "k"] :
          List String).reverse.take MAX_HISTORY_ITEMS ∧
      (addAll ["a", "b", "c", "d", "e", "f", "g", "h", "i", "j", "k"]).length =
        MAX_HISTORY_ITEMS) :=
  ⟨historyStoreInvariant.1 "Paris" ["London"] ⟨by decide, by decide⟩,
   historyStoreInvariant.2 ["a", "b", "c", "d", "e", "f", "g", "h", "i", "j", "k"]
     rfl (by decide)⟩

/-- C8: add is idempotent with respect to ordering-at-front: adding the
same name twice yields the same list as adding it once, the name sits at
the front, and it occurs exactly once under case-insensitive comparison,
so the list does not grow. -/
theorem addIdempotentAtFront (city : String) (h : List String) :
    saveCityToHistory city (saveCityToHistory city h) = saveCityToHistory city h ∧
    (saveCityToHistory city h).head? = some city ∧
    (saveCityToHistory city h).countP
      (fun x => jsToLowerCase x == jsToLowerCase city) = 1 :=
  ⟨saveCity_collapse rfl h, saveCity_head city h, saveCity_count city h⟩

/-- C9: add deduplicates case-insensitively and keeps the casing added
last: for any two names equal under case-insensitive comparison, adding
both in sequence is the same as adding only the second, which then occurs
exactly once and at the front with its own casing. -/
theorem addDedupKeepsLastCasing (c₁ c₂ : String) (h : List String)
    (hlow : jsToLowerCase c₁ = jsToLowerCase c₂) :
    saveCityToHistory c₂ (saveCityToHistory c₁ h) = saveCityToHistory c₂ h ∧
    (saveCityToHistory c₂ (saveCityToHistory c₁ h)).countP
      (fun x => jsToLowerCase x == jsToLowerCase c₂) = 1 ∧
    (saveCityToHistory c₂ (saveCityToHistory c₁ h)).head? = some c₂ := by
  refine ⟨saveCity_collapse hlow h, ?_, ?_⟩
  · rw [saveCity_collapse hlow h]
    exact saveCity_count c₂ h
  · rw [saveCity_collapse hlow h]
    exact saveCity_head c₂ h

/-- C9 witness: adding "Paris" then "PARIS" over a concrete prior history
collapses to adding "PARIS" alone, with one occurrence at the front in the
last-added casing. -/
theorem addDedupKeepsLastCasingWitness :
    saveCityToHistory "PARIS" (saveCityToHistory "Paris" ["Rome"]) =
      saveCityToHistory "PARIS" ["Rome"] ∧
    (saveCityToHistory "PARIS" (saveCityToHistory "Paris" ["Rome"])).countP
      (fun x => jsToLowerCase x == jsToLowerCase "PARIS") = 1 ∧
    (saveCityToHistory "PARIS" (saveCityToHistory "Paris" ["Rome"])).head? =
      some "PARIS" :=
  addDedupKeepsLastCasing "Paris" "PARIS" ["Rome"] (by decide)

end WeatherDashboard
